import Mathlib

/-!
Verification of the rufi aggregate-computing virtual machine.

This file gives a shallow embedding of the VM core
(alignment stack, field, state, messages, and the primitives
neighboring / repeat / branch / share of src/rufi/src/rufi/aggregate.rs)
and proves or refutes the specification claims about it.

Modelling conventions:
* Rust BTreeMap is modelled as an association list with lookup btreeFind
  and replace-or-append insertion btreeInsert (key order never matters to
  the properties proved here; concrete maps are built in key order).
* u32 counters are Nat with explicit saturation at U32_MAX
  (Saturating<u32> addition).
* The Rust panic in State::get (type mismatch) is modelled as the
  dedicated result constructor StateGet.typeMismatch carrying the path
  and the expected type, mirroring the panic message contents; primitives
  that can reach it return in the Panicking monad-like type.
* Serializers are an explicit record of total functions into Except,
  mirroring the pluggable Serializer trait; values range over a small
  closed universe Ty (Int and String) sufficient for the claims.
-/

/-- Association-list model of BTreeMap lookup. -/
def btreeFind {α β : Type} [DecidableEq α] : List (α × β) → α → Option β
  | [], _ => none
  | (k, v) :: rest, key => if key = k then some v else btreeFind rest key

/-- Association-list model of BTreeMap insert: replace the existing
binding for the key or append a new one. -/
def btreeInsert {α β : Type} [DecidableEq α] : List (α × β) → α → β → List (α × β)
  | [], key, value => [(key, value)]
  | (k, v) :: rest, key, value =>
    if key = k then (key, value) :: rest else (k, v) :: btreeInsert rest key value

instance {ε α : Type} [DecidableEq ε] [DecidableEq α] : DecidableEq (Except ε α) := fun x y =>
  match x, y with
  | .ok a, .ok b =>
    if h : a = b then .isTrue (by rw [h]) else .isFalse (fun hh => h (Except.ok.inj hh))
  | .error a, .error b =>
    if h : a = b then .isTrue (by rw [h]) else .isFalse (fun hh => h (Except.error.inj hh))
  | .ok _, .error _ => .isFalse (fun hh => Except.noConfusion hh)
  | .error _, .ok _ => .isFalse (fun hh => Except.noConfusion hh)

namespace Rufi

/-- The closed universe of value types transported through the VM. -/
inductive Ty where
  | int
  | str
deriving DecidableEq

/-- Interpretation of the value universe. -/
@[reducible] def Ty.interp : Ty → Type
  | .int => Int
  | .str => String

def Ty.decEq (t : Ty) : DecidableEq t.interp :=
  match t with
  | .int => inferInstanceAs (DecidableEq Int)
  | .str => inferInstanceAs (DecidableEq String)

instance (t : Ty) : DecidableEq t.interp := Ty.decEq t

/-- Opaque wire bytes. -/
abbrev Bytes := List Nat

/-- The pluggable serializer contract (src/rufi/src/rufi/messages/serializer.rs),
with the error type fixed to its displayed message. -/
structure Serializer where
  ser : (t : Ty) → t.interp → Except String Bytes
  deser : (t : Ty) → Bytes → Except String t.interp

/-- A concrete injective encoding used to instantiate the serializer. -/
def encodeVal : (t : Ty) → t.interp → Bytes
  | .int, .ofNat n => [0, n]
  | .int, .negSucc n => [1, n]
  | .str, s => 2 :: s.toList.map Char.toNat

/-- Decoder matching encodeVal; fails on any other shape. -/
def decodeVal : (t : Ty) → Bytes → Option t.interp
  | .int, [0, n] => some (.ofNat n)
  | .int, [1, n] => some (.negSucc n)
  | .str, 2 :: cs => some (String.mk (cs.map Char.ofNat))
  | _, _ => none

/-- The canonical serializer instance used by concrete scenarios. -/
def canonicalSerializer : Serializer where
  ser := fun t v => .ok (encodeVal t v)
  deser := fun t b =>
    match decodeVal t b with
    | some v => .ok v
    | none => .error ("invalid bytes")

/-- A serializer whose serialization always fails (deserialization is
canonical); used to exercise serialization-error paths. -/
def failingSerializer : Serializer where
  ser := fun _ _ => .error ("serializer failure")
  deser := canonicalSerializer.deser

/-- src/rufi/src/rufi/alignment/alignment_stack.rs: InvocationCoordinate. -/
structure InvocationCoordinate where
  counter : Nat
  token : String
deriving DecidableEq

/-- Display of a coordinate: "token:counter". -/
def InvocationCoordinate.render (c : InvocationCoordinate) : String :=
  c.token ++ (":") ++ toString c.counter

/-- src/rufi/src/rufi/messages/path.rs: a path is a list of token strings. -/
structure Path where
  tokens : List String
deriving DecidableEq

/-- Display of a path: tokens joined by "/". -/
def Path.render (p : Path) : String := String.intercalate ("/") p.tokens

/-- Path::new applied to a vector of coordinates (ToString per element). -/
def Path.ofCoords (cs : List InvocationCoordinate) : Path :=
  ⟨cs.map InvocationCoordinate.render⟩

/-- u32::MAX, the saturation bound of the alignment counters. -/
def U32_MAX : Nat := 4294967295

/-- Saturating<u32> increment. -/
def satSucc (n : Nat) : Nat := min (n + 1) U32_MAX

/-- src/rufi/src/rufi/alignment/alignment_stack.rs: AlignmentStack. -/
structure AlignmentStack where
  stack : List InvocationCoordinate
  trace : List (Path × Nat)
deriving DecidableEq

def AlignmentStack.new : AlignmentStack := ⟨[], []⟩

def AlignmentStack.current_path (s : AlignmentStack) : List InvocationCoordinate :=
  s.stack

/-- AlignmentStack::align. -/
def AlignmentStack.align (s : AlignmentStack) (token : String) : AlignmentStack :=
  let current_path := Path.ofCoords s.stack
  let current_counter :=
    match btreeFind s.trace current_path with
    | some counter => satSucc counter
    | none => 0
  { stack := s.stack ++ [⟨current_counter, token⟩]
    trace := btreeInsert s.trace current_path current_counter }

/-- AlignmentStack::unalign: pop the back of the stack; the trace is kept. -/
def AlignmentStack.unalign (s : AlignmentStack) : AlignmentStack :=
  { s with stack := s.stack.dropLast }

/-- src/rufi/src/rufi/data/field.rs: Field. -/
structure Field (Id V : Type) where
  default : V
  overrides : List (Id × V)
deriving DecidableEq

/-- Field::new. -/
def Field.new {Id V : Type} (default : V) (overrides : List (Id × V)) : Field Id V :=
  ⟨default, overrides⟩

/-- Field::local. -/
def Field.localValue {Id V : Type} (f : Field Id V) : V := f.default

/-- Field::aligned_map. -/
def Field.aligned_map {Id V V2 O : Type} [DecidableEq Id]
    (f1 : Field Id V) (f2 : Field Id V2) (transform : V → V2 → O) : Field Id O :=
  Field.new (transform f1.default f2.default)
    (f1.overrides.filterMap
      (fun kv => (btreeFind f2.overrides kv.1).map (fun v2 => (kv.1, transform kv.2 v2))))

/-- A stored state cell: a type tag with a value of that type
(models Box<dyn Any> plus downcast). -/
structure Stored where
  ty : Ty
  val : ty.interp

instance : DecidableEq Stored := fun a b =>
  match a, b with
  | ⟨.int, x⟩, ⟨.int, y⟩ =>
    if h : x = y then .isTrue (by subst h; rfl)
    else .isFalse (fun hh => h (by injection hh))
  | ⟨.str, x⟩, ⟨.str, y⟩ =>
    if h : x = y then .isTrue (by subst h; rfl)
    else .isFalse (fun hh => h (by injection hh))
  | ⟨.int, _⟩, ⟨.str, _⟩ => .isFalse (fun hh => Ty.noConfusion (congrArg Stored.ty hh))
  | ⟨.str, _⟩, ⟨.int, _⟩ => .isFalse (fun hh => Ty.noConfusion (congrArg Stored.ty hh))

/-- src/rufi/src/rufi/data/state.rs: State. -/
structure State where
  last_state : List (Path × Stored)
deriving DecidableEq

def State.new : State := ⟨[]⟩

/-- State::insert: always overwrites. -/
def State.insert (s : State) (path : Path) (t : Ty) (value : t.interp) : State :=
  ⟨btreeInsert s.last_state path ⟨t, value⟩⟩

/-- Outcome of State::get: absent, found, or the type-mismatch panic
(carrying the path and the expected type that the panic message names). -/
inductive StateGet (t : Ty) where
  | absent
  | found (v : t.interp)
  | typeMismatch (path : Path) (expected : Ty)
deriving DecidableEq

/-- State::get: nothing when absent; typed downcast when present;
panic (modelled as typeMismatch) when the stored tag differs. -/
def State.get (s : State) (t : Ty) (path : Path) : StateGet t :=
  match btreeFind s.last_state path with
  | none => .absent
  | some stored =>
    if h : stored.ty = t then .found (h ▸ stored.val)
    else .typeMismatch path t

/-- src/rufi/src/rufi/messages/valuetree.rs: ValueTree. -/
structure ValueTree where
  underlying : List (Path × Bytes)
deriving DecidableEq

def ValueTree.get (vt : ValueTree) (path : Path) : Option Bytes :=
  btreeFind vt.underlying path

def ValueTree.contains_key (vt : ValueTree) (path : Path) : Bool :=
  (btreeFind vt.underlying path).isSome

/-- src/rufi/src/rufi/messages/inbound.rs: InboundMessage. -/
structure InboundMessage (Id : Type) where
  underlying : List (Id × ValueTree)
deriving DecidableEq

/-- Default::default for InboundMessage. -/
def InboundMessage.empty {Id : Type} : InboundMessage Id := ⟨[]⟩

/-- InboundMessage::get_at_path. -/
def InboundMessage.get_at_path {Id : Type} (m : InboundMessage Id) (path : Path) :
    List (Id × Bytes) :=
  m.underlying.filterMap (fun kv => (kv.2.get path).map (fun v => (kv.1, v)))

/-- src/rufi/src/rufi/messages/outbound.rs: OutboundMessage. -/
structure OutboundMessage (Id : Type) where
  sender : Id
  underlying : List (String × Bytes)
deriving DecidableEq

/-- OutboundMessage::empty. -/
def OutboundMessage.empty {Id : Type} (sender : Id) : OutboundMessage Id :=
  ⟨sender, []⟩

/-- OutboundMessage::append: key the bytes by the textual path. -/
def OutboundMessage.append {Id : Type} (m : OutboundMessage Id) (path : Path)
    (value : Bytes) : OutboundMessage Id :=
  { m with underlying := btreeInsert m.underlying path.render value }

/-- OutboundMessage::at. -/
def OutboundMessage.at {Id : Type} (m : OutboundMessage Id) (path : Path) : Option Bytes :=
  btreeFind m.underlying path.render

/-- src/rufi/src/rufi/aggregate.rs: AggregateError. -/
inductive AggregateError where
  | serializationError (msg : String)
  | deserializationError (msg : String)
deriving DecidableEq

/-- src/rufi/src/rufi/aggregate.rs: VM. -/
structure VM (Id : Type) where
  local_id : Id
  state : State
  inbound : InboundMessage Id
  outbound : OutboundMessage Id
  alignment_stack : AlignmentStack
  serializer : Serializer

/-- VM::new. -/
def VM.new {Id : Type} (local_id : Id) (serializer : Serializer) : VM Id :=
  ⟨local_id, State.new, InboundMessage.empty, OutboundMessage.empty local_id,
    AlignmentStack.new, serializer⟩

/-- VM::prepare_new_round: fresh outbound with the local sender, fresh
alignment stack, the given inbound; the state is untouched. -/
def VM.prepare_new_round {Id : Type} (vm : VM Id) (inbound : InboundMessage Id) : VM Id :=
  { vm with
    outbound := OutboundMessage.empty vm.local_id
    alignment_stack := AlignmentStack.new
    inbound := inbound }

/-- The deserialization loop of VM::get_at_path: deserialize each entry in
iteration order, stopping at the first failure with a DeserializationError
naming the path. -/
def deserEntries {Id : Type} (s : Serializer) (t : Ty) (path : Path) :
    List (Id × Bytes) → Except AggregateError (List (Id × t.interp))
  | [] => .ok []
  | (id, bytes) :: rest =>
    match s.deser t bytes with
    | .ok v =>
      match deserEntries s t path rest with
      | .ok acc => .ok ((id, v) :: acc)
      | .error e => .error e
    | .error err =>
      .error (.deserializationError
        (("Failed to deserialize value at path ") ++ path.render ++ (": ") ++ err))

/-- VM::get_at_path. -/
def VM.get_at_path {Id : Type} (vm : VM Id) (t : Ty) (path : Path) :
    Except AggregateError (List (Id × t.interp)) :=
  deserEntries vm.serializer t path (vm.inbound.get_at_path path)

/-- VM::neighboring.  Note: when get_at_path fails the error is returned
through the question-mark operator with no unalign; the
serialization-error path unaligns inside map_err. -/
def VM.neighboring {Id : Type} (vm : VM Id) (t : Ty) (value : t.interp) :
    Except AggregateError (Field Id t.interp) × VM Id :=
  let stack1 := vm.alignment_stack.align ("neighboring")
  let vm1 := { vm with alignment_stack := stack1 }
  let path := Path.ofCoords stack1.current_path
  match vm1.get_at_path t path with
  | .error e => (.error e, vm1)
  | .ok neighboring_values =>
    let result := Field.new value neighboring_values
    match vm1.serializer.ser t value with
    | .error err =>
      (.error (.serializationError (("Failed to serialize neighboring value: ") ++ err)),
        { vm1 with alignment_stack := vm1.alignment_stack.unalign })
    | .ok serialized_value =>
      let vm2 := { vm1 with outbound := vm1.outbound.append path serialized_value }
      (.ok result, { vm2 with alignment_stack := vm2.alignment_stack.unalign })

/-- Result type of the primitives that read the typed state and can hit
the State::get panic. -/
inductive Panicking (α : Type) where
  | panicked (path : Path) (expected : Ty)
  | returned (a : α)
deriving DecidableEq

/-- The part of VM::repeat after the previous state has been resolved. -/
def VM.repeatRest {Id : Type} (vm1 : VM Id) (t : Ty) (current_path : Path)
    (previous_state : t.interp) (evolution : t.interp → VM Id → t.interp × VM Id) :
    Panicking (t.interp × VM Id) :=
  let res := evolution previous_state vm1
  let updated_state := res.1
  let vm2 := res.2
  .returned (updated_state,
    { vm2 with
      state := vm2.state.insert current_path t updated_state
      alignment_stack := vm2.alignment_stack.unalign })

/-- VM::repeat. -/
def VM.repeat {Id : Type} (vm : VM Id) (t : Ty) (initial : t.interp)
    (evolution : t.interp → VM Id → t.interp × VM Id) : Panicking (t.interp × VM Id) :=
  let stack1 := vm.alignment_stack.align ("repeat")
  let vm1 := { vm with alignment_stack := stack1 }
  let current_path := Path.ofCoords stack1.current_path
  match vm1.state.get t current_path with
  | .typeMismatch p expected => .panicked p expected
  | .found previous_state => VM.repeatRest vm1 t current_path previous_state evolution
  | .absent => VM.repeatRest vm1 t current_path initial evolution

/-- VM::branch. -/
def VM.branch {Id α : Type} (vm : VM Id) (condition : Bool)
    (th el : VM Id → α × VM Id) : α × VM Id :=
  let stack1 := vm.alignment_stack.align (("branch[") ++ toString condition ++ ("]"))
  let vm1 := { vm with alignment_stack := stack1 }
  let res := if condition then th vm1 else el vm1
  (res.1, { res.2 with alignment_stack := res.2.alignment_stack.unalign })

/-- The part of VM::share after the previous state has been resolved.
Note: a get_at_path failure is returned with no unalign (question-mark
operator); a serialization failure unaligns but the state insert has
already happened. -/
def VM.shareRest {Id : Type} (vm1 : VM Id) (t : Ty) (current_path : Path)
    (previous_state : t.interp) (evolution : VM Id → Field Id t.interp → t.interp × VM Id) :
    Panicking (Except AggregateError t.interp × VM Id) :=
  match vm1.get_at_path t current_path with
  | .error e => .returned (.error e, vm1)
  | .ok neighboring_values =>
    let field := Field.new previous_state neighboring_values
    let res := evolution vm1 field
    let updated_state := res.1
    let vm2 := res.2
    let vm3 := { vm2 with state := vm2.state.insert current_path t updated_state }
    match vm3.serializer.ser t updated_state with
    | .error err =>
      .returned (.error (.serializationError (("Failed to serialize share value: ") ++ err)),
        { vm3 with alignment_stack := vm3.alignment_stack.unalign })
    | .ok serialized_value =>
      let vm4 := { vm3 with outbound := vm3.outbound.append current_path serialized_value }
      .returned (.ok updated_state, { vm4 with alignment_stack := vm4.alignment_stack.unalign })

/-- VM::share. -/
def VM.share {Id : Type} (vm : VM Id) (t : Ty) (initial : t.interp)
    (evolution : VM Id → Field Id t.interp → t.interp × VM Id) :
    Panicking (Except AggregateError t.interp × VM Id) :=
  let stack1 := vm.alignment_stack.align ("share")
  let vm1 := { vm with alignment_stack := stack1 }
  let current_path := Path.ofCoords stack1.current_path
  match vm1.state.get t current_path with
  | .typeMismatch p expected => .panicked p expected
  | .found previous_state => VM.shareRest vm1 t current_path previous_state evolution
  | .absent => VM.shareRest vm1 t current_path initial evolution

/-! ## Basic lemmas about the association-list model of BTreeMap -/

theorem btreeFind_insert_self {α β : Type} [DecidableEq α]
    (l : List (α × β)) (k : α) (v : β) :
    btreeFind (btreeInsert l k v) k = some v := by
  induction l with
  | nil => simp [btreeInsert, btreeFind]
  | cons hd tl ih =>
    by_cases h : k = hd.1
    · simp [btreeInsert, btreeFind, h]
    · simp only [btreeInsert]
      rw [if_neg h]
      simp only [btreeFind]
      rw [if_neg h]
      exact ih

theorem btreeFind_insert_ne {α β : Type} [DecidableEq α]
    (l : List (α × β)) (k q : α) (v : β) (h : q ≠ k) :
    btreeFind (btreeInsert l k v) q = btreeFind l q := by
  induction l with
  | nil => simp [btreeInsert, btreeFind, h]
  | cons hd tl ih =>
    by_cases hk : k = hd.1
    · subst hk
      simp only [btreeInsert, if_pos rfl, btreeFind]
      rw [if_neg h, if_neg h]
    · simp only [btreeInsert]
      rw [if_neg hk]
      by_cases hq : q = hd.1
      · simp [btreeFind, hq]
      · simp only [btreeFind]
        rw [if_neg hq, if_neg hq]
        exact ih

theorem btreeFind_isSome_iff {α β : Type} [DecidableEq α]
    (l : List (α × β)) (k : α) :
    (btreeFind l k).isSome ↔ k ∈ l.map Prod.fst := by
  induction l with
  | nil => simp [btreeFind]
  | cons hd tl ih =>
    by_cases h : k = hd.1
    · simp [btreeFind, h]
    · simp only [btreeFind]
      rw [if_neg h]
      simp [ih, h]

/-! ## Field.aligned_map -/

/-- Pointwise lookup characterization of the overrides produced by
Field::aligned_map. -/
theorem alignedMap_find {Id V V2 O : Type} [DecidableEq Id]
    (o1 : List (Id × V)) (o2 : List (Id × V2)) (f : V → V2 → O) (k : Id) :
    btreeFind (o1.filterMap
      (fun kv => (btreeFind o2 kv.1).map (fun v2 => (kv.1, f kv.2 v2)))) k
    = (btreeFind o1 k).bind (fun v1 => (btreeFind o2 k).map (fun v2 => f v1 v2)) := by
  induction o1 with
  | nil => simp [btreeFind]
  | cons hd tl ih =>
    obtain ⟨k1, v1⟩ := hd
    by_cases hk : k = k1
    · subst hk
      cases h2 : btreeFind o2 k with
      | none =>
        simp only [List.filterMap_cons, h2, Option.map_none']
        rw [ih]
        simp only [btreeFind, if_pos rfl, h2]
        cases btreeFind tl k <;> simp
      | some v2 =>
        simp only [List.filterMap_cons, h2, Option.map_some']
        simp [btreeFind, h2]
    · cases h2 : btreeFind o2 k1 with
      | none =>
        simp only [List.filterMap_cons, h2, Option.map_none']
        rw [ih]
        simp only [btreeFind]
        rw [if_neg hk]
      | some v2 =>
        simp only [List.filterMap_cons, h2, Option.map_some']
        simp only [btreeFind]
        rw [if_neg hk, if_neg hk]
        exact ih

/-- C3: Field.aligned_map returns a field whose default is
f(F1.default, F2.default) and whose overrides key set is exactly the
intersection of the two override key sets, with every common key k mapped
to f(F1.overrides[k], F2.overrides[k]). -/
theorem aligned_map_spec {Id V V2 O : Type} [DecidableEq Id]
    (f1 : Field Id V) (f2 : Field Id V2) (f : V → V2 → O) :
    (f1.aligned_map f2 f).default = f f1.default f2.default ∧
    (∀ k, btreeFind (f1.aligned_map f2 f).overrides k
        = (btreeFind f1.overrides k).bind
            (fun v1 => (btreeFind f2.overrides k).map (fun v2 => f v1 v2))) ∧
    (∀ k, k ∈ (f1.aligned_map f2 f).overrides.map Prod.fst ↔
        k ∈ f1.overrides.map Prod.fst ∧ k ∈ f2.overrides.map Prod.fst) := by
  refine ⟨rfl, fun k => alignedMap_find f1.overrides f2.overrides f k, fun k => ?_⟩
  rw [← btreeFind_isSome_iff, ← btreeFind_isSome_iff, ← btreeFind_isSome_iff]
  show (btreeFind (f1.aligned_map f2 f).overrides k).isSome ↔ _
  rw [show (f1.aligned_map f2 f).overrides = f1.overrides.filterMap
      (fun kv => (btreeFind f2.overrides kv.1).map (fun v2 => (kv.1, f kv.2 v2))) from rfl,
    alignedMap_find f1.overrides f2.overrides f k]
  cases btreeFind f1.overrides k <;> cases btreeFind f2.overrides k <;> simp

/-! ## AlignmentStack -/

/-- The counters received by k successive sibling invocations of the same
token: each iteration aligns, observes the counter of the pushed
coordinate (top of stack), and unaligns. -/
def siblingCounters (s : AlignmentStack) (token : String) : Nat → List (Option Nat)
  | 0 => []
  | k+1 =>
    ((s.align token).stack.getLast?.map InvocationCoordinate.counter) ::
      siblingCounters ((s.align token).unalign) token k

theorem align_unalign_stack (s : AlignmentStack) (token : String) :
    ((s.align token).unalign).stack = s.stack := by
  simp [AlignmentStack.align, AlignmentStack.unalign]

theorem range_map_shift {α : Type} (g : Nat → α) (c k : Nat) :
    (List.range (k+1)).map (fun i => g (c+i)) =
      g c :: (List.range k).map (fun i => g (c+1+i)) := by
  rw [List.range_succ_eq_map, List.map_cons, List.map_map]
  have hfun : ((fun i => g (c+i)) ∘ Nat.succ) = (fun i => g (c+1+i)) := by
    funext i
    simp only [Function.comp_apply]
    congr 1
    omega
  rw [hfun]
  simp

theorem siblingCounters_from (token : String) :
    ∀ (k : Nat) (s : AlignmentStack) (c : Nat),
      btreeFind s.trace (Path.ofCoords s.stack) = some c →
      c + k ≤ U32_MAX →
      siblingCounters s token k = (List.range k).map (fun i => some (c+1+i))
  | 0, s, c, _, _ => by simp [siblingCounters]
  | (k+1), s, c, hc, hk => by
    have hmin : satSucc c = c + 1 := by
      have : c + 1 ≤ U32_MAX := by omega
      simp [satSucc, Nat.min_eq_left this]
    have hcount : (s.align token).stack.getLast?.map InvocationCoordinate.counter
        = some (c+1) := by
      simp [AlignmentStack.align, hc, hmin]
    have htrace : btreeFind ((s.align token).unalign).trace
        (Path.ofCoords ((s.align token).unalign).stack) = some (c+1) := by
      rw [align_unalign_stack]
      have htr : ((s.align token).unalign).trace
          = btreeInsert s.trace (Path.ofCoords s.stack) (satSucc c) := by
        simp [AlignmentStack.align, AlignmentStack.unalign, hc]
      rw [htr, btreeFind_insert_self, hmin]
    simp only [siblingCounters, hcount]
    rw [siblingCounters_from token k ((s.align token).unalign) (c+1) htrace (by omega)]
    rw [show ((List.range (k+1)).map (fun i => some (c+1+i)))
        = some (c+1) :: (List.range k).map (fun i => some (c+1+1+i))
      from range_map_shift (fun i => some i) (c+1) k]

theorem siblingCounters_fresh (s : AlignmentStack) (token : String) (k : Nat)
    (h : btreeFind s.trace (Path.ofCoords s.stack) = none) (hk : k ≤ U32_MAX + 1) :
    siblingCounters s token k = (List.range k).map some := by
  cases k with
  | zero => simp [siblingCounters]
  | succ k =>
    have hcount : (s.align token).stack.getLast?.map InvocationCoordinate.counter
        = some 0 := by
      simp [AlignmentStack.align, h]
    have htrace : btreeFind ((s.align token).unalign).trace
        (Path.ofCoords ((s.align token).unalign).stack) = some 0 := by
      rw [align_unalign_stack]
      have htr : ((s.align token).unalign).trace
          = btreeInsert s.trace (Path.ofCoords s.stack) 0 := by
        simp [AlignmentStack.align, AlignmentStack.unalign, h]
      rw [htr, btreeFind_insert_self]
    simp only [siblingCounters, hcount]
    rw [siblingCounters_from token k ((s.align token).unalign) 0 htrace (by omega)]
    rw [show ((List.range (k+1)).map some)
        = (List.range (k+1)).map (fun i => some (0+i)) by simp]
    rw [range_map_shift (fun i => some i) 0 k]

/-- C4: align(token) pushes the coordinate (token, c) with
c = trace[P] + 1 saturating at u32::MAX when the pre-push path P is
traced and c = 0 otherwise, and records trace[P] = c; unalign pops the
top coordinate and leaves the trace untouched; consequently k sibling
invocations of the same token under the same (fresh) parent path receive
the distinct counters 0, 1, ..., k-1. -/
theorem alignment_stack_spec :
    (∀ (s : AlignmentStack) (token : String),
      s.align token =
        { stack := s.stack ++ [⟨(match btreeFind s.trace (Path.ofCoords s.stack) with
            | some c => min (c + 1) U32_MAX
            | none => 0), token⟩]
          trace := btreeInsert s.trace (Path.ofCoords s.stack)
            (match btreeFind s.trace (Path.ofCoords s.stack) with
            | some c => min (c + 1) U32_MAX
            | none => 0) }) ∧
    (∀ s : AlignmentStack, s.unalign = { stack := s.stack.dropLast, trace := s.trace }) ∧
    (∀ (s : AlignmentStack) (token : String) (k : Nat),
      btreeFind s.trace (Path.ofCoords s.stack) = none → k ≤ U32_MAX + 1 →
      siblingCounters s token k = (List.range k).map some) :=
  ⟨fun _ _ => rfl, fun _ => rfl, fun s token k h hk => siblingCounters_fresh s token k h hk⟩

/-- Witness for C4: on a fresh stack, three siblings of the same token
receive the counters 0, 1, 2. -/
theorem alignment_stack_spec_witness :
    siblingCounters AlignmentStack.new ("share") 3 = [some 0, some 1, some 2] :=
  (alignment_stack_spec.2.2 AlignmentStack.new ("share") 3 rfl (by decide)).trans (by decide)

/-! ## State -/

/-- C8: State::get returns nothing when the store has no entry at the
path, a typed value when the stored tag matches, and the dedicated
type-mismatch failure carrying the path and the expected type when the
tag differs; it never silently returns or corrects a value. -/
theorem state_get_spec (s : State) (t : Ty) (p : Path) :
    (btreeFind s.last_state p = none → s.get t p = .absent) ∧
    (∀ stored, btreeFind s.last_state p = some stored → stored.ty ≠ t →
      s.get t p = .typeMismatch p t) ∧
    (∀ stored, ∀ _h : btreeFind s.last_state p = some stored, ∀ h2 : stored.ty = t,
      s.get t p = .found (h2 ▸ stored.val)) := by
  refine ⟨fun h => ?_, fun stored h hne => ?_, fun stored h h2 => ?_⟩
  · simp [State.get, h]
  · simp only [State.get, h]
    rw [dif_neg hne]
  · simp only [State.get, h]
    rw [dif_pos h2]

/-- A store holding a string at the path "repeat:0". -/
def mismatchState : State := State.new.insert ⟨[("repeat:0")]⟩ .str ("hello")

/-- Witness for C8: reading that path at type int yields the
type-mismatch failure naming the path and the expected type. -/
theorem state_get_spec_witness :
    mismatchState.get .int ⟨[("repeat:0")]⟩ = .typeMismatch ⟨[("repeat:0")]⟩ .int :=
  (state_get_spec mismatchState .int ⟨[("repeat:0")]⟩).2.1 ⟨.str, ("hello")⟩ rfl (by decide)

/-! ## neighboring -/

theorem btreeFind_mem {α β : Type} [DecidableEq α] {l : List (α × β)} {k : α} {v : β}
    (h : btreeFind l k = some v) : (k, v) ∈ l := by
  induction l with
  | nil => simp [btreeFind] at h
  | cons hd tl ih =>
    by_cases hk : k = hd.1
    · simp only [btreeFind] at h
      rw [if_pos hk] at h
      obtain rfl := Option.some.inj h
      subst hk
      exact List.mem_cons_self _ _
    · simp only [btreeFind] at h
      rw [if_neg hk] at h
      exact List.mem_cons_of_mem _ (ih h)

theorem btreeFind_eq_none_of_not_mem {α β : Type} [DecidableEq α]
    {l : List (α × β)} {k : α} (h : k ∉ l.map Prod.fst) : btreeFind l k = none := by
  rw [← Option.not_isSome_iff_eq_none, btreeFind_isSome_iff]
  exact h

/-- List-level lookup characterization of the get_at_path filter. -/
theorem get_at_path_find_list {Id : Type} [DecidableEq Id] (p : Path) (id : Id) :
    ∀ l : List (Id × ValueTree), (l.map Prod.fst).Nodup →
      btreeFind (l.filterMap (fun kv => (kv.2.get p).map (fun v => (kv.1, v)))) id
        = (btreeFind l id).bind (fun vt => vt.get p)
  | [], _ => by simp [btreeFind]
  | (i, vt) :: tl, hnd => by
    simp only [List.map_cons, List.nodup_cons] at hnd
    obtain ⟨hni, hnd2⟩ := hnd
    cases hvt : vt.get p with
    | some b =>
      simp only [List.filterMap_cons, hvt, Option.map_some']
      by_cases hk : id = i
      · subst hk
        simp [btreeFind, hvt]
      · simp only [btreeFind]
        rw [if_neg hk, if_neg hk]
        exact get_at_path_find_list p id tl hnd2
    | none =>
      simp only [List.filterMap_cons, hvt, Option.map_none']
      by_cases hk : id = i
      · subst hk
        rw [get_at_path_find_list p id tl hnd2, btreeFind_eq_none_of_not_mem hni]
        simp [btreeFind, hvt]
      · simp only [btreeFind]
        rw [if_neg hk]
        exact get_at_path_find_list p id tl hnd2

/-- Lookup characterization of InboundMessage::get_at_path on a message
with distinct sender ids: a neighbor id maps to the bytes its ValueTree
holds at the path, when any. -/
theorem get_at_path_find {Id : Type} [DecidableEq Id]
    (m : InboundMessage Id) (p : Path) (id : Id)
    (hnd : (m.underlying.map Prod.fst).Nodup) :
    btreeFind (m.get_at_path p) id
      = (btreeFind m.underlying id).bind (fun vt => vt.get p) :=
  get_at_path_find_list p id m.underlying hnd

/-- A successful deserialization pass maps each id to the deserialization
of its bytes. -/
theorem deserEntries_find {Id : Type} [DecidableEq Id]
    (s : Serializer) (t : Ty) (p : Path) :
    ∀ (l : List (Id × Bytes)) (nv : List (Id × t.interp)),
      deserEntries s t p l = .ok nv →
      ∀ id, btreeFind nv id = (btreeFind l id).bind (fun b => (s.deser t b).toOption)
  | [], nv, h, id => by
    simp only [deserEntries] at h
    obtain rfl := (Except.ok.inj h)
    simp [btreeFind]
  | (i, b) :: rest, nv, h, id => by
    simp only [deserEntries] at h
    cases hd : s.deser t b with
    | error e => rw [hd] at h; exact absurd h (by simp)
    | ok v =>
      rw [hd] at h
      cases hr : deserEntries s t p rest with
      | error e => rw [hr] at h; exact absurd h (by simp)
      | ok acc =>
        rw [hr] at h
        obtain rfl := (Except.ok.inj h)
        by_cases hk : id = i
        · subst hk
          simp [btreeFind, hd, Except.toOption]
        · simp only [btreeFind]
          rw [if_neg hk, if_neg hk]
          exact deserEntries_find s t p rest acc hr id

/-- A successful deserialization pass deserializes every entry. -/
theorem deserEntries_forall {Id : Type} [DecidableEq Id]
    (s : Serializer) (t : Ty) (p : Path) :
    ∀ (l : List (Id × Bytes)) (nv : List (Id × t.interp)),
      deserEntries s t p l = .ok nv →
      ∀ kv ∈ l, ∃ v, s.deser t kv.2 = .ok v
  | [], _, _, kv, hm => absurd hm (List.not_mem_nil kv)
  | (i, b) :: rest, nv, h, kv, hm => by
    simp only [deserEntries] at h
    cases hd : s.deser t b with
    | error e => rw [hd] at h; exact absurd h (by simp)
    | ok v =>
      rw [hd] at h
      cases hr : deserEntries s t p rest with
      | error e => rw [hr] at h; exact absurd h (by simp)
      | ok acc =>
        rcases List.mem_cons.mp hm with hm1 | hm2
        · subst hm1; exact ⟨v, hd⟩
        · exact deserEntries_forall s t p rest acc hr kv hm2

/-- The path a primitive materializes after aligning on a token. -/
def alignedPath (s : AlignmentStack) (token : String) : Path :=
  Path.ofCoords (s.align token).current_path

/-- C2: neighboring(v) returns a field whose default is v and whose
overrides map exactly those neighbor ids whose inbound ValueTree has an
entry at the current path to the deserialization of those bytes, and it
appends the serialization of v to the outbound message at that path
(stack restored on exit). -/
theorem neighboring_spec {Id : Type} [DecidableEq Id] (vm : VM Id) (t : Ty) (v : t.interp)
    (nv : List (Id × t.interp)) (bytes : Bytes)
    (h1 : deserEntries vm.serializer t (alignedPath vm.alignment_stack ("neighboring"))
        (vm.inbound.get_at_path (alignedPath vm.alignment_stack ("neighboring"))) = .ok nv)
    (h2 : vm.serializer.ser t v = .ok bytes)
    (hnd : (vm.inbound.underlying.map Prod.fst).Nodup) :
    vm.neighboring t v =
      (.ok (Field.new v nv),
        { vm with
            outbound := vm.outbound.append
              (alignedPath vm.alignment_stack ("neighboring")) bytes
            alignment_stack := (vm.alignment_stack.align ("neighboring")).unalign }) ∧
    (∀ id, btreeFind nv id
        = ((btreeFind vm.inbound.underlying id).bind
            (fun vt => vt.get (alignedPath vm.alignment_stack ("neighboring")))).bind
            (fun b => (vm.serializer.deser t b).toOption)) ∧
    (∀ id, (btreeFind nv id).isSome ↔
        ((btreeFind vm.inbound.underlying id).bind
          (fun vt => vt.get (alignedPath vm.alignment_stack ("neighboring")))).isSome) := by
  have hfind : ∀ id, btreeFind nv id
      = (btreeFind (vm.inbound.get_at_path
          (alignedPath vm.alignment_stack ("neighboring"))) id).bind
          (fun b => (vm.serializer.deser t b).toOption) :=
    deserEntries_find vm.serializer t _ _ nv h1
  refine ⟨?_, fun id => ?_, fun id => ?_⟩
  · simp only [VM.neighboring, VM.get_at_path, alignedPath] at h1 ⊢
    rw [h1, h2]
  · rw [hfind id, get_at_path_find vm.inbound _ id hnd]
  · rw [hfind id, get_at_path_find vm.inbound _ id hnd]
    cases hgap : (btreeFind vm.inbound.underlying id).bind
        (fun vt => vt.get (alignedPath vm.alignment_stack ("neighboring"))) with
    | none => simp
    | some b =>
      simp only [Option.bind_some, Option.isSome_some, iff_true]
      have hmem : (id, b) ∈ vm.inbound.get_at_path
          (alignedPath vm.alignment_stack ("neighboring")) := by
        apply btreeFind_mem
        rw [get_at_path_find vm.inbound _ id hnd, hgap]
      obtain ⟨w, hw⟩ := deserEntries_forall vm.serializer t _ _ nv h1 (id, b) hmem
      simp [hw, Except.toOption]

/-- Scenario S1: the aligned path of a single top-level neighboring call. -/
def pathN0 : Path := ⟨[("neighboring:0")]⟩

/-- Scenario S1 inbound: neighbor 1 sent serialize(7) at "neighboring:0". -/
def s1Inbound : InboundMessage Nat := ⟨[(1, ⟨[(pathN0, encodeVal .int 7)]⟩)]⟩

/-- Scenario S1 VM: local id 0 with the canonical serializer. -/
def s1VM : VM Nat := (VM.new 0 canonicalSerializer).prepare_new_round s1Inbound

/-- Witness for C2 (scenario S1): neighboring(3) returns default 3,
overrides {1 ↦ 7}; the outbound holds serialize(3) at "neighboring:0";
the stack is balanced again. -/
theorem neighboring_spec_witness :
    (s1VM.neighboring .int 3).1 = .ok (Field.new 3 [(1, 7)]) ∧
    (s1VM.neighboring .int 3).2.outbound.at pathN0 = some (encodeVal .int 3) ∧
    (s1VM.neighboring .int 3).2.outbound.sender = 0 ∧
    (s1VM.neighboring .int 3).2.alignment_stack.stack = [] := by
  have h := neighboring_spec s1VM .int 3 [(1, (7 : Int))] (encodeVal .int 3)
    (by decide) rfl (by decide)
  refine ⟨?_, ?_, ?_, ?_⟩ <;> rw [h.1] <;> decide

/-! ## Error propagation and the alignment stack -/

/-- Inbound carrying bytes at "neighboring:0" that do not deserialize as
an int (they encode a string). -/
def badInbound : InboundMessage Nat := ⟨[(1, ⟨[(pathN0, encodeVal .str ("x"))]⟩)]⟩

/-- VM facing badInbound. -/
def badVM : VM Nat := (VM.new 0 canonicalSerializer).prepare_new_round badInbound

/-- Inbound carrying bytes at "share:0" that do not deserialize as an int. -/
def badShareInbound : InboundMessage Nat :=
  ⟨[(1, ⟨[(⟨[("share:0")]⟩, encodeVal .str ("x"))]⟩)]⟩

/-- VM facing badShareInbound. -/
def badShareVM : VM Nat := (VM.new 0 canonicalSerializer).prepare_new_round badShareInbound

/-- The result component of a primitive that went through Panicking. -/
def panickingVal {α β : Type} : Panicking (α × β) → Option α
  | .panicked _ _ => none
  | .returned (a, _) => some a

/-- The post-state VM of a primitive that went through Panicking. -/
def panickingVM {α β : Type} : Panicking (α × β) → Option β
  | .panicked _ _ => none
  | .returned (_, b) => some b

/-- C1 (evaluation at the failing input): when deserialization of a
neighbor's bytes fails, both neighboring and share return the
deserialize error with the alignment stack still one deeper than at
entry (entry depth 0, exit depth 1): the primitives do not unalign on
this error path. -/
theorem deser_error_leaves_stack_aligned :
    (badVM.neighboring .int 3).1 =
      .error (.deserializationError
        (("Failed to deserialize value at path neighboring:0: invalid bytes"))) ∧
    badVM.alignment_stack.stack.length = 0 ∧
    (badVM.neighboring .int 3).2.alignment_stack.stack.length = 1 ∧
    panickingVal (badShareVM.share .int 0 (fun v f => (f.default, v))) =
      some (.error (.deserializationError
        (("Failed to deserialize value at path share:0: invalid bytes")))) ∧
    badShareVM.alignment_stack.stack.length = 0 ∧
    (panickingVM (badShareVM.share .int 0 (fun v f => (f.default, v)))).map
      (fun v => v.alignment_stack.stack.length) = some 1 := by
  decide

/-! ## repeat across rounds -/

/-- One round of scenario S3: prepare a new (empty) round, then run
repeat(10, prev → prev + 1). -/
def repeatRound (vm : VM Nat) : Panicking (Int × VM Nat) :=
  (vm.prepare_new_round InboundMessage.empty).repeat .int 10 (fun prev v => (prev + 1, v))

/-- Observations of n successive S3 rounds: per round the returned value,
the outbound content and the final stack depth. -/
def repeatTrace : Nat → VM Nat → List (Option Int × List (String × Bytes) × Nat)
  | 0, _ => []
  | n+1, vm =>
    match repeatRound vm with
    | .panicked _ _ => [(none, [], 0)]
    | .returned (v, vm2) =>
      (some v, vm2.outbound.underlying, vm2.alignment_stack.stack.length) ::
        repeatTrace n vm2

/-- C5: prepare_new_round replaces the inbound, creates a fresh empty
outbound with sender = localId and resets the alignment stack while
keeping the state; consequently repeat(10, prev → prev + 1) run once per
round returns 11, 12, 13, 14, 15 on rounds 1..5 and never appends
anything to the outbound message. -/
theorem repeat_rounds_spec :
    (∀ (Id : Type) (vm : VM Id) (ib : InboundMessage Id),
      (vm.prepare_new_round ib).state = vm.state ∧
      (vm.prepare_new_round ib).inbound = ib ∧
      (vm.prepare_new_round ib).outbound = OutboundMessage.empty vm.local_id ∧
      (vm.prepare_new_round ib).alignment_stack = AlignmentStack.new) ∧
    repeatTrace 5 (VM.new 0 canonicalSerializer) =
      [(some 11, [], 0), (some 12, [], 0), (some 13, [], 0),
       (some 14, [], 0), (some 15, [], 0)] :=
  ⟨fun _ _ _ => ⟨rfl, rfl, rfl, rfl⟩, by decide⟩

/-! ## branch -/

/-- Scenario S4 paths. -/
def pathBT : Path := ⟨[("branch[true]:0"), ("neighboring:0")]⟩

def pathBF : Path := ⟨[("branch[false]:0"), ("neighboring:0")]⟩

/-- Scenario S4 inbound: neighbor 1 spoke under branch[false], neighbor 2
under branch[true]. -/
def s4Inbound : InboundMessage Nat :=
  ⟨[(1, ⟨[(pathBF, encodeVal .int 1)]⟩), (2, ⟨[(pathBT, encodeVal .int 2)]⟩)]⟩

/-- Scenario S4 VM: local id 0 (even). -/
def s4VM : VM Nat := (VM.new 0 canonicalSerializer).prepare_new_round s4Inbound

/-- Scenario S4 program: branch(localId%2==0, v→neighboring(u32::MAX),
v→neighboring(u32::MIN)). -/
def s4Result : Except AggregateError (Field Nat Int) × VM Nat :=
  s4VM.branch (s4VM.local_id % 2 == 0)
    (fun vm => vm.neighboring .int 4294967295)
    (fun vm => vm.neighboring .int 0)

/-- C7: branch aligns on token branch[true] when the condition holds and
branch[false] otherwise, evaluates only the selected lambda (the result
does not depend on the unselected one), and in scenario S4 the
neighboring call inside the taken branch sees only the neighbor that
took the same branch: default u32::MAX, overrides {2 ↦ 2}. -/
theorem branch_spec {Id : Type} :
    (∀ (α : Type) (vm : VM Id) (th el el' : VM Id → α × VM Id),
      vm.branch true th el = vm.branch true th el') ∧
    (∀ (α : Type) (vm : VM Id) (th th' el : VM Id → α × VM Id),
      vm.branch false th el = vm.branch false th' el) ∧
    (∀ (vm : VM Id) (b : Bool),
      ∃ c, (vm.branch b
          (fun v => (v.alignment_stack.stack.getLast?, v))
          (fun v => (v.alignment_stack.stack.getLast?, v))).1
        = some ⟨c, ("branch[") ++ toString b ++ ("]")⟩) ∧
    (s4Result.1 = .ok (Field.new 4294967295 [(2, 2)]) ∧
      s4Result.2.alignment_stack.stack.length = 0) := by
  refine ⟨fun α vm th el el' => rfl, fun α vm th th' el => rfl, fun vm b => ?_, by decide⟩
  cases b
  · exact ⟨(match btreeFind vm.alignment_stack.trace (Path.ofCoords vm.alignment_stack.stack) with
      | some t => satSucc t
      | none => 0), by
        simp [VM.branch, AlignmentStack.align, List.getLast?_concat]⟩
  · exact ⟨(match btreeFind vm.alignment_stack.trace (Path.ofCoords vm.alignment_stack.stack) with
      | some t => satSucc t
      | none => 0), by
        simp [VM.branch, AlignmentStack.align, List.getLast?_concat]⟩

/-! ## share -/

/-- The VM as a primitive's body sees it right after aligning. -/
def VM.withAligned {Id : Type} (vm : VM Id) (token : String) : VM Id :=
  { vm with alignment_stack := vm.alignment_stack.align token }

/-- Behavior of the body of share after the previous state is resolved,
when deserialization and serialization succeed. -/
theorem shareRest_spec {Id : Type} [DecidableEq Id] (vm1 : VM Id) (t : Ty) (p : Path)
    (prev : t.interp) (evolution : VM Id → Field Id t.interp → t.interp × VM Id)
    (nv : List (Id × t.interp)) (bytes : Bytes)
    (h1 : deserEntries vm1.serializer t p (vm1.inbound.get_at_path p) = .ok nv)
    (h2 : (evolution vm1 (Field.new prev nv)).2.serializer.ser t
        (evolution vm1 (Field.new prev nv)).1 = .ok bytes) :
    vm1.shareRest t p prev evolution =
      .returned (.ok (evolution vm1 (Field.new prev nv)).1,
        { (evolution vm1 (Field.new prev nv)).2 with
            state := (evolution vm1 (Field.new prev nv)).2.state.insert p t
              (evolution vm1 (Field.new prev nv)).1
            outbound := (evolution vm1 (Field.new prev nv)).2.outbound.append p bytes
            alignment_stack :=
              (evolution vm1 (Field.new prev nv)).2.alignment_stack.unalign }) := by
  simp only [VM.shareRest, VM.get_at_path, h1]
  simp only [h2]

/-- C6: a successful share(initial, evolution) reads prev as the stored
state at its path (or initial when absent), passes evolution the field
Field(prev, deserialized neighbors at the path), stores next =
evolution(vm, field) in the state at that path, appends the
serialization of next to the outbound at that path, unaligns, and
returns next. -/
theorem share_spec {Id : Type} [DecidableEq Id] (vm : VM Id) (t : Ty)
    (initial prev : t.interp)
    (evolution : VM Id → Field Id t.interp → t.interp × VM Id)
    (nv : List (Id × t.interp)) (bytes : Bytes)
    (h0 : vm.state.get t (alignedPath vm.alignment_stack ("share")) = .found prev ∨
      (vm.state.get t (alignedPath vm.alignment_stack ("share")) = .absent ∧
        prev = initial))
    (h1 : deserEntries vm.serializer t (alignedPath vm.alignment_stack ("share"))
        (vm.inbound.get_at_path (alignedPath vm.alignment_stack ("share"))) = .ok nv)
    (h2 : (evolution (vm.withAligned ("share")) (Field.new prev nv)).2.serializer.ser t
        (evolution (vm.withAligned ("share")) (Field.new prev nv)).1 = .ok bytes) :
    vm.share t initial evolution =
      .returned (.ok (evolution (vm.withAligned ("share")) (Field.new prev nv)).1,
        { (evolution (vm.withAligned ("share")) (Field.new prev nv)).2 with
            state := (evolution (vm.withAligned ("share")) (Field.new prev nv)).2.state.insert
              (alignedPath vm.alignment_stack ("share")) t
              (evolution (vm.withAligned ("share")) (Field.new prev nv)).1
            outbound :=
              (evolution (vm.withAligned ("share")) (Field.new prev nv)).2.outbound.append
                (alignedPath vm.alignment_stack ("share")) bytes
            alignment_stack :=
              (evolution (vm.withAligned ("share"))
                (Field.new prev nv)).2.alignment_stack.unalign }) ∧
    (∀ (nx : t.interp) (vmF : VM Id),
      vm.share t initial evolution = .returned (.ok nx, vmF) →
      btreeFind vmF.state.last_state (alignedPath vm.alignment_stack ("share"))
          = some ⟨t, nx⟩ ∧
      vmF.outbound.at (alignedPath vm.alignment_stack ("share")) = some bytes) := by
  have hrest := shareRest_spec (vm.withAligned ("share")) t
    (alignedPath vm.alignment_stack ("share")) prev evolution nv bytes h1 h2
  have hmain : vm.share t initial evolution =
      .returned (.ok (evolution (vm.withAligned ("share")) (Field.new prev nv)).1,
        { (evolution (vm.withAligned ("share")) (Field.new prev nv)).2 with
            state := (evolution (vm.withAligned ("share")) (Field.new prev nv)).2.state.insert
              (alignedPath vm.alignment_stack ("share")) t
              (evolution (vm.withAligned ("share")) (Field.new prev nv)).1
            outbound :=
              (evolution (vm.withAligned ("share")) (Field.new prev nv)).2.outbound.append
                (alignedPath vm.alignment_stack ("share")) bytes
            alignment_stack :=
              (evolution (vm.withAligned ("share"))
                (Field.new prev nv)).2.alignment_stack.unalign }) := by
    simp only [VM.share, VM.withAligned, alignedPath] at h0 hrest ⊢
    rcases h0 with hf | ⟨ha, rfl⟩
    · rw [hf]
      exact hrest
    · rw [ha]
      exact hrest
  refine ⟨hmain, fun nx vmF heq => ?_⟩
  rw [hmain] at heq
  obtain ⟨hok, hvm⟩ := Prod.mk.injEq .. ▸ (Panicking.returned.inj heq)
  obtain rfl := Except.ok.inj hok
  subst hvm
  constructor
  · exact btreeFind_insert_self ..
  · exact btreeFind_insert_self ..

/-- Scenario S5 path. -/
def s5Path : Path := ⟨[("share:0")]⟩

/-- Scenario S5 inbound: neighbors 1 and 2 shared 10 and 20. -/
def s5Inbound : InboundMessage Nat :=
  ⟨[(1, ⟨[(s5Path, encodeVal .int 10)]⟩), (2, ⟨[(s5Path, encodeVal .int 20)]⟩)]⟩

/-- Scenario S5 VM. -/
def s5VM : VM Nat := (VM.new 0 canonicalSerializer).prepare_new_round s5Inbound

/-- Scenario S5 evolution: f.local() + f.size(), with size = 1 + number
of overrides. -/
def s5Evolution : VM Nat → Field Nat Int → Int × VM Nat :=
  fun vmx f => (f.default + (1 + (f.overrides.length : Int)), vmx)

/-- Witness for C6 (scenario S5, round 1): share(1, λ(_,f). f.local() +
f.size()) returns 4, stores 4 at "share:0", sends serialize(4), and
leaves the stack balanced. -/
theorem share_spec_witness :
    panickingVal (s5VM.share .int 1 s5Evolution) = some (.ok 4) ∧
    (panickingVM (s5VM.share .int 1 s5Evolution)).map
      (fun v => (btreeFind v.state.last_state s5Path, v.outbound.at s5Path,
        v.alignment_stack.stack.length))
      = some (some ⟨.int, 4⟩, some (encodeVal .int 4), 0) := by
  have h := share_spec s5VM .int 1 1 s5Evolution [(1, 10), (2, 20)] (encodeVal .int 4)
    (Or.inr ⟨rfl, rfl⟩) (by decide) (by decide)
  refine ⟨?_, ?_⟩ <;> rw [h.1] <;> decide

/-! ## share under serialization failure -/

/-- Behavior of the body of share when serialization of the updated value
fails: the error is surfaced after unaligning, but the state insert has
already happened and nothing is appended to the outbound. -/
theorem shareRest_ser_error {Id : Type} [DecidableEq Id] (vm1 : VM Id) (t : Ty) (p : Path)
    (prev : t.interp) (evolution : VM Id → Field Id t.interp → t.interp × VM Id)
    (nv : List (Id × t.interp)) (err : String)
    (h1 : deserEntries vm1.serializer t p (vm1.inbound.get_at_path p) = .ok nv)
    (h2 : (evolution vm1 (Field.new prev nv)).2.serializer.ser t
        (evolution vm1 (Field.new prev nv)).1 = .error err) :
    vm1.shareRest t p prev evolution =
      .returned (.error (.serializationError (("Failed to serialize share value: ") ++ err)),
        { (evolution vm1 (Field.new prev nv)).2 with
            state := (evolution vm1 (Field.new prev nv)).2.state.insert p t
              (evolution vm1 (Field.new prev nv)).1
            alignment_stack :=
              (evolution vm1 (Field.new prev nv)).2.alignment_stack.unalign }) := by
  simp only [VM.shareRest, VM.get_at_path, h1]
  simp only [h2]

/-- C10: if serialization of share's updated value fails, share returns a
SerializationError, but the state entry at the share path has already
been overwritten with the updated value and nothing is appended to the
outbound message: the state update is not rolled back on error. -/
theorem share_ser_error_spec {Id : Type} [DecidableEq Id] (vm : VM Id) (t : Ty)
    (initial prev : t.interp)
    (evolution : VM Id → Field Id t.interp → t.interp × VM Id)
    (nv : List (Id × t.interp)) (err : String)
    (h0 : vm.state.get t (alignedPath vm.alignment_stack ("share")) = .found prev ∨
      (vm.state.get t (alignedPath vm.alignment_stack ("share")) = .absent ∧
        prev = initial))
    (h1 : deserEntries vm.serializer t (alignedPath vm.alignment_stack ("share"))
        (vm.inbound.get_at_path (alignedPath vm.alignment_stack ("share"))) = .ok nv)
    (h2 : (evolution (vm.withAligned ("share")) (Field.new prev nv)).2.serializer.ser t
        (evolution (vm.withAligned ("share")) (Field.new prev nv)).1 = .error err) :
    vm.share t initial evolution =
      .returned (.error (.serializationError (("Failed to serialize share value: ") ++ err)),
        { (evolution (vm.withAligned ("share")) (Field.new prev nv)).2 with
            state := (evolution (vm.withAligned ("share")) (Field.new prev nv)).2.state.insert
              (alignedPath vm.alignment_stack ("share")) t
              (evolution (vm.withAligned ("share")) (Field.new prev nv)).1
            alignment_stack :=
              (evolution (vm.withAligned ("share"))
                (Field.new prev nv)).2.alignment_stack.unalign }) ∧
    (∀ (e : AggregateError) (vmF : VM Id),
      vm.share t initial evolution = .returned (.error e, vmF) →
      btreeFind vmF.state.last_state (alignedPath vm.alignment_stack ("share"))
          = some ⟨t, (evolution (vm.withAligned ("share")) (Field.new prev nv)).1⟩ ∧
      vmF.outbound = (evolution (vm.withAligned ("share")) (Field.new prev nv)).2.outbound) := by
  have hrest := shareRest_ser_error (vm.withAligned ("share")) t
    (alignedPath vm.alignment_stack ("share")) prev evolution nv err h1 h2
  have hmain : vm.share t initial evolution =
      .returned (.error (.serializationError (("Failed to serialize share value: ") ++ err)),
        { (evolution (vm.withAligned ("share")) (Field.new prev nv)).2 with
            state := (evolution (vm.withAligned ("share")) (Field.new prev nv)).2.state.insert
              (alignedPath vm.alignment_stack ("share")) t
              (evolution (vm.withAligned ("share")) (Field.new prev nv)).1
            alignment_stack :=
              (evolution (vm.withAligned ("share"))
                (Field.new prev nv)).2.alignment_stack.unalign }) := by
    simp only [VM.share, VM.withAligned, alignedPath] at h0 hrest ⊢
    rcases h0 with hf | ⟨ha, rfl⟩
    · rw [hf]
      exact hrest
    · rw [ha]
      exact hrest
  refine ⟨hmain, fun e vmF heq => ?_⟩
  rw [hmain] at heq
  obtain ⟨hok, hvm⟩ := Prod.mk.injEq .. ▸ (Panicking.returned.inj heq)
  subst hvm
  exact ⟨btreeFind_insert_self .., rfl⟩

/-- A VM whose serializer always fails on serialization. -/
def failVM : VM Nat := (VM.new 0 failingSerializer).prepare_new_round InboundMessage.empty

/-- Witness for C10: share(5, prev + 2) under the failing serializer
returns the serialization error, yet the state holds 7 at "share:0", the
outbound stays empty, and the next round still reads 7 as previous
state. -/
theorem share_ser_error_witness :
    panickingVal (failVM.share .int 5 (fun v f => (f.default + 2, v))) =
      some (.error (.serializationError
        (("Failed to serialize share value: serializer failure")))) ∧
    (panickingVM (failVM.share .int 5 (fun v f => (f.default + 2, v)))).map
      (fun v => (btreeFind v.state.last_state s5Path, v.outbound.underlying,
        v.alignment_stack.stack.length,
        (v.prepare_new_round InboundMessage.empty).state.get .int s5Path))
      = some (some ⟨.int, 7⟩, [], 0, .found 7) := by
  have h := share_ser_error_spec failVM .int 5 5 (fun v f => (f.default + 2, v))
    [] ("serializer failure") (Or.inr ⟨rfl, rfl⟩) rfl rfl
  refine ⟨?_, ?_⟩ <;> rw [h.1] <;> decide

/-! ## Local id and overrides -/

/-- An inbound view that (unexpectedly) contains an entry for the local
device id 0 itself. -/
def echoInbound : InboundMessage Nat := ⟨[(0, ⟨[(pathN0, encodeVal .int 7)]⟩)]⟩

/-- VM facing echoInbound. -/
def echoVM : VM Nat := (VM.new 0 canonicalSerializer).prepare_new_round echoInbound

/-- Counterexample to C9 as stated: when the inbound message itself
carries an entry keyed by the local id (an echoed message), the local id
does appear among the override keys of the field neighboring returns:
nothing in the code filters it out. -/
theorem local_id_in_overrides_cex :
    echoVM.local_id = 0 ∧
    (echoVM.neighboring .int 3).1 = .ok (Field.new 3 [(0, 7)]) ∧
    btreeFind (Field.new (3 : Int) [((0 : Nat), (7 : Int))]).overrides 0 = some 7 := by
  decide

/-- Keys of get_at_path results are keys of the inbound message. -/
theorem get_at_path_keys_subset {Id : Type} [DecidableEq Id]
    (l : List (Id × ValueTree)) (p : Path) (k : Id)
    (h : k ∈ (l.filterMap
      (fun kv => (kv.2.get p).map (fun v => (kv.1, v)))).map Prod.fst) :
    k ∈ l.map Prod.fst := by
  obtain ⟨⟨k2, b⟩, hmem, rfl⟩ := List.mem_map.mp h
  obtain ⟨⟨i, vt⟩, hin, heq⟩ := List.mem_filterMap.mp hmem
  cases hvt : vt.get p with
  | none => rw [hvt] at heq; exact absurd heq (by simp)
  | some bb =>
    rw [hvt] at heq
    obtain ⟨rfl, rfl⟩ := Prod.mk.injEq .. ▸ Option.some.inj heq
    exact List.mem_map.mpr ⟨(i, vt), hin, rfl⟩

/-- C9 (amended): provided the inbound message holds no entry keyed by
the local id, the local id is never an override key: neither in a
successful get_at_path result (hence not in the field share passes to
its evolution callback, whose overrides are exactly such a result) nor
in the field returned by neighboring. -/
theorem local_id_not_in_overrides {Id : Type} [DecidableEq Id] (vm : VM Id)
    (hne : btreeFind vm.inbound.underlying vm.local_id = none) :
    (∀ (t : Ty) (p : Path) (nv : List (Id × t.interp)),
      deserEntries vm.serializer t p (vm.inbound.get_at_path p) = .ok nv →
      btreeFind nv vm.local_id = none) ∧
    (∀ (t : Ty) (v : t.interp) (f : Field Id t.interp),
      (vm.neighboring t v).1 = .ok f →
      btreeFind f.overrides vm.local_id = none) := by
  have hgap : ∀ p : Path, btreeFind (vm.inbound.get_at_path p) vm.local_id = none := by
    intro p
    apply btreeFind_eq_none_of_not_mem
    intro hmem
    have := get_at_path_keys_subset vm.inbound.underlying p vm.local_id hmem
    rw [← btreeFind_isSome_iff, hne] at this
    exact absurd this (by simp)
  have hmap : ∀ (t : Ty) (p : Path) (nv : List (Id × t.interp)),
      deserEntries vm.serializer t p (vm.inbound.get_at_path p) = .ok nv →
      btreeFind nv vm.local_id = none := by
    intro t p nv hok
    rw [deserEntries_find vm.serializer t p _ nv hok vm.local_id, hgap p]
    rfl
  refine ⟨hmap, fun t v f heq => ?_⟩
  revert heq
  simp only [VM.neighboring, VM.get_at_path]
  cases hgapr : deserEntries vm.serializer t
      (Path.ofCoords ((vm.alignment_stack.align ("neighboring")).current_path))
      (vm.inbound.get_at_path
        (Path.ofCoords ((vm.alignment_stack.align ("neighboring")).current_path))) with
  | error e => intro heq; exact absurd heq (by simp)
  | ok nv =>
    cases hser : vm.serializer.ser t v with
    | error e2 => intro heq; exact absurd heq (by simp)
    | ok bs =>
      intro heq
      obtain rfl := Except.ok.inj heq
      exact hmap t _ nv hgapr

/-- Witness for the amended C9: in scenario S1 (inbound only from
neighbor 1, local id 0), the returned field's overrides do not contain
the local id. -/
theorem local_id_not_in_overrides_witness :
    btreeFind (Field.new (3 : Int) [((1 : Nat), (7 : Int))]).overrides s1VM.local_id
      = none :=
  (local_id_not_in_overrides s1VM rfl).2 .int 3 (Field.new 3 [(1, 7)]) (by decide)

end Rufi
